import Mathlib

/- Verification of the sandbox helper of thought-machine/please
   (tools/sandbox/sandbox.c, sandbox.h, main.c, nonet_main.c).

   C strings are modelled as `List Char` (a C string never contains a NUL,
   so the list of its characters is a faithful model).  Pure functions
   (change_path, change_env_vars, exec_name) are translated directly.
   The syscall-performing functions (mount_tmp, the waitpid/reap logic of
   contain) are modelled as pure functions from an environment and an
   oracle of syscall outcomes to a trace of attempted operations, a list
   of emitted diagnostics, and the returned value. -/

namespace Plz

/-- C strings modelled as lists of characters. -/
abbrev Str := List Char

/-- change_path (sandbox.c:368-382).  The C code checks
    `strncmp(old_dir, old_name + prefix_len, old_dir_len) == 0`, i.e.
    whether `old_dir` is a prefix of the suffix of `old_name` starting at
    `prefix_len`; if so it returns a fresh string
    `old_name[0:prefix_len] ++ new_dir ++ old_name[prefix_len+old_dir_len:]`,
    otherwise it returns `old_name` unchanged. -/
def change_path (old_name old_dir new_dir : Str) (prefix_len : Nat) : Str :=
  if old_dir.isPrefixOf (old_name.drop prefix_len)
  then old_name.take prefix_len ++ new_dir ++ old_name.drop (prefix_len + old_dir.length)
  else old_name

/-- exec_name (sandbox.c:363-365): change_path at offset 0. -/
def exec_name (old_name old_dir new_dir : Str) : Str :=
  change_path old_name old_dir new_dir 0

/-- Index of the first occurrence of a character in a string
    (models `strchr`, returning the offset instead of a pointer). -/
def chr_index (c : Char) : Str → Option Nat
  | [] => none
  | a :: as => if a = c then some 0 else (chr_index c as).map (fun i => i + 1)

/-- The equals-sign character (code 61). -/
def eqChar : Char := Char.ofNat 61

/-- change_env_vars (sandbox.c:385-392): for each entry of the
    NULL-terminated array, locate the first occurrence of the
    equals sign (strchr); if an entry contains one, replace the entry by
    change_path with offset one past it, else leave the entry unchanged.
    The in-place mutation of the C array is modelled by returning the new
    array. -/
def change_env_vars (env : List Str) (old_dir new_dir : Str) : List Str :=
  env.map (fun e =>
    match chr_index eqChar e with
    | some i => change_path e old_dir new_dir (i + 1)
    | none => e)

/-- Executable substring test: `needle` occurs somewhere inside `hay`. -/
def hasSub (hay needle : Str) : Bool :=
  (List.range (hay.length + 1)).any (fun i => needle.isPrefixOf (hay.drop i))

theorem isPrefixOf_iff_take (p l : Str) :
    p.isPrefixOf l = true ↔ l.take p.length = p := by
  rw [ List.isPrefixOf_iff_prefix, List.prefix_iff_eq_take]
  exact ⟨fun h => h.symm, fun h => h.symm⟩

/-- C1: change_path is the identity when the substring of `value` at
    `offset` of length `len(old_dir)` differs from `old_dir`; when it
    equals `old_dir` the result is
    `value[0:offset] ++ new_dir ++ value[offset+len(old_dir):]`, its
    length is `len(value) - len(old_dir) + len(new_dir)`, and the bytes
    outside the substitution window are preserved. -/
theorem C1_change_path :
    ∀ (value old_dir new_dir : Str) (off : Nat),
    off ≤ value.length → old_dir ≠ [] →
    (((value.drop off).take old_dir.length ≠ old_dir →
        change_path value old_dir new_dir off = value) ∧
     ((value.drop off).take old_dir.length = old_dir →
        change_path value old_dir new_dir off
          = value.take off ++ new_dir ++ value.drop (off + old_dir.length) ∧
        (change_path value old_dir new_dir off).length
          = value.length - old_dir.length + new_dir.length ∧
        (change_path value old_dir new_dir off).take off = value.take off ∧
        (change_path value old_dir new_dir off).drop (off + new_dir.length)
          = value.drop (off + old_dir.length))) := by
  intro value old_dir new_dir off hoff _hne
  constructor
  · intro hne
    unfold change_path
    rw [if_neg]
    intro hpre
    exact hne ((isPrefixOf_iff_take _ _).mp hpre)
  · intro heq
    have hpre : old_dir.isPrefixOf (value.drop off) = true :=
      (isPrefixOf_iff_take _ _).mpr heq
    have hres : change_path value old_dir new_dir off
        = value.take off ++ new_dir ++ value.drop (off + old_dir.length) := by
      unfold change_path
      rw [if_pos hpre]
    -- length accounting: the match forces old_dir to fit inside value
    have hfit : old_dir.length ≤ value.length - off := by
      have := congrArg List.length heq
      simp only [List.length_take, List.length_drop] at this
      omega
    have hlen_take : (value.take off).length = off := by
      simp [List.length_take]; omega
    refine ⟨hres, ?_, ?_, ?_⟩
    · rw [hres]
      simp only [List.length_append, List.length_take, List.length_drop]
      omega
    · rw [hres, List.append_assoc]
      exact List.take_left' hlen_take
    · rw [hres, List.append_assoc, ← List.append_assoc]
      have hlen2 : (value.take off ++ new_dir).length = off + new_dir.length := by
        simp [List.length_append, hlen_take]
      rw [List.drop_left' hlen2]

/-- Witness for C1 at the unit test vector of sandbox_test.cc
    (ExecNameWithinDir). -/
theorem C1_change_path_witness :
    (0 : Nat) ≤ ("/work/plz-out/tmp/target.build/test.bin".toList).length ∧
    change_path "/work/plz-out/tmp/target.build/test.bin".toList
        "/work/plz-out/tmp/target.build".toList "/tmp/plz_sandbox".toList 0
      = "/tmp/plz_sandbox/test.bin".toList := by
  refine ⟨by decide, ?_⟩
  have h := (C1_change_path "/work/plz-out/tmp/target.build/test.bin".toList
    "/work/plz-out/tmp/target.build".toList "/tmp/plz_sandbox".toList 0
    (by decide) (by decide)).2 (by decide)
  rw [h.1]
  decide

theorem chr_index_eq_none (c : Char) (l : Str) :
    chr_index c l = none ↔ c ∉ l := by
  induction l with
  | nil => simp [chr_index]
  | cons a as ih =>
    by_cases h : a = c
    · subst h
      simp [chr_index]
    · rw [chr_index, if_neg h]
      constructor
      · intro hn
        cases hc : chr_index c as with
        | none =>
          intro hor
          rcases List.mem_cons.mp hor with hca | hmem
          · exact h hca.symm
          · exact (ih.mp hc) hmem
        | some k =>
          rw [hc] at hn
          simp at hn
      · intro hn
        rw [ih.mpr (fun hm => hn (List.mem_cons_of_mem a hm))]
        rfl

theorem chr_index_append (a b : Str) (c : Char) (h : c ∉ a) :
    chr_index c (a ++ c :: b) = some a.length := by
  induction a with
  | nil => simp [chr_index]
  | cons x xs ih =>
    have hx : ¬ (x = c) := by
      intro e
      exact h (e ▸ List.mem_cons_self x xs)
    have hxs : c ∉ xs := fun hm => h (List.mem_cons_of_mem x hm)
    simp [chr_index, hx, ih hxs]

theorem change_path_after_eq (a b old_dir new_dir : Str) :
    change_path (a ++ eqChar :: b) old_dir new_dir (a.length + 1)
      = a ++ eqChar :: change_path b old_dir new_dir 0 := by
  have hsplit : a ++ eqChar :: b = (a ++ [eqChar]) ++ b := by simp
  have hlen : (a ++ [eqChar]).length = a.length + 1 := by simp
  have hd : (a ++ eqChar :: b).drop (a.length + 1) = b := by
    rw [hsplit]
    exact List.drop_left' hlen
  have ht : (a ++ eqChar :: b).take (a.length + 1) = a ++ [eqChar] := by
    rw [hsplit]
    exact List.take_left' hlen
  by_cases hp : old_dir.isPrefixOf b = true
  · have hd2 : (a ++ eqChar :: b).drop (a.length + 1 + old_dir.length)
        = b.drop old_dir.length := by
      rw [hsplit, show a.length + 1 + old_dir.length
            = (a ++ [eqChar]).length + old_dir.length by rw [hlen]]
      exact List.drop_append old_dir.length
    unfold change_path
    rw [hd, if_pos hp, List.drop_zero, if_pos hp, ht, hd2]
    simp
  · unfold change_path
    rw [hd, if_neg hp, List.drop_zero, if_neg hp]

/-- C6: change_env_vars preserves the number of entries, leaves any entry
    that contains no equals sign unchanged, and replaces any entry of the
    form `name ++ sign ++ value` (first occurrence of the sign) by the
    same name and sign followed by `change_path value old_dir new_dir 0`,
    i.e. it rewrites only an old_dir prefix of the value part. -/
theorem C6_change_env_vars :
    ∀ (env : List Str) (old_dir new_dir : Str) (i : Nat) (e : Str),
    env[i]? = some e →
    ((change_env_vars env old_dir new_dir).length = env.length ∧
     (eqChar ∉ e → (change_env_vars env old_dir new_dir)[i]? = some e) ∧
     (∀ a b, e = a ++ eqChar :: b → eqChar ∉ a →
        (change_env_vars env old_dir new_dir)[i]?
          = some (a ++ eqChar :: change_path b old_dir new_dir 0))) := by
  intro env old_dir new_dir i e he
  refine ⟨by simp [change_env_vars], ?_, ?_⟩
  · intro hne
    rw [change_env_vars, List.getElem?_map, he, Option.map_some',
        (chr_index_eq_none eqChar e).mpr hne]
  · intro a b hab hna
    rw [change_env_vars, List.getElem?_map, he, Option.map_some', hab,
        chr_index_append a b eqChar hna]
    exact congrArg some (change_path_after_eq a b old_dir new_dir)

/-- Test environment from sandbox_test.cc (ChangeEnvVars). -/
def test_env : List Str :=
  ["TMP_DIR=/home/peter/git/please/plz-out/tmp/my_test".toList,
   "RESULTS_FILE=/home/peter/git/please/plz-out/tmp/my_test/test.results".toList,
   "SOME_TOOL=/usr/local/bin/go".toList,
   "thirty-five ham and cheese sandwiches".toList]

def test_old : Str := "/home/peter/git/please/plz-out/tmp/my_test".toList

def test_new : Str := "/tmp/plz_sandbox".toList

/-- Witness for C6 on the entry with index 1 of the unit-test environment. -/
theorem C6_change_env_vars_witness :
    (change_env_vars test_env test_old test_new)[1]?
      = some "RESULTS_FILE=/tmp/plz_sandbox/test.results".toList := by
  have h := ((C6_change_env_vars test_env test_old test_new 1
      "RESULTS_FILE=/home/peter/git/please/plz-out/tmp/my_test/test.results".toList
      (by decide)).2.2)
    "RESULTS_FILE".toList
    "/home/peter/git/please/plz-out/tmp/my_test/test.results".toList
    (by decide) (by decide)
  rw [h]
  decide

/-- C9: rewriting a prefix A to B at offset 0 and then B back to A at
    offset 0 restores the original string, under the claimed side
    conditions (A a prefix of s; neither A nor B occurs in the surviving
    suffix). -/
theorem C9_roundtrip :
    ∀ (s A B : Str),
    A.isPrefixOf s = true →
    hasSub (s.drop A.length) A = false →
    hasSub (s.drop A.length) B = false →
    change_path (change_path s A B 0) B A 0 = s := by
  intro s A B hA _h1 _h2
  have hA0 : A.isPrefixOf (s.drop 0) = true := by rw [List.drop_zero]; exact hA
  have h1 : change_path s A B 0 = B ++ s.drop A.length := by
    unfold change_path
    rw [if_pos hA0]
    simp
  have hp : B.isPrefixOf ((B ++ s.drop A.length).drop 0) = true := by
    rw [List.drop_zero]
    exact (isPrefixOf_iff_take _ _).mpr (List.take_left _ _)
  have h2 : change_path (B ++ s.drop A.length) B A 0 = A ++ s.drop A.length := by
    unfold change_path
    rw [if_pos hp]
    simp [List.drop_left]
  rw [h1, h2]
  have hs : s.take A.length = A := (isPrefixOf_iff_take A s).mp hA
  conv_rhs => rw [← List.take_append_drop A.length s]
  rw [hs]

/-- Witness for C9 at s = "ab", A = "a", B = "c". -/
theorem C9_roundtrip_witness :
    change_path (change_path "ab".toList "a".toList "c".toList 0)
        "c".toList "a".toList 0 = "ab".toList := by
  exact C9_roundtrip "ab".toList "a".toList "c".toList
    (by decide) (by decide) (by decide)

/- ---------- contain: clone flag computation (sandbox.c:329-330) ---------- -/

def CLONE_NEWNS : Nat := 0x00020000

def CLONE_NEWUTS : Nat := 0x04000000

def CLONE_NEWIPC : Nat := 0x08000000

def CLONE_NEWUSER : Nat := 0x10000000

def CLONE_NEWPID : Nat := 0x20000000

def CLONE_NEWNET : Nat := 0x40000000

def SIGCHLD : Nat := 17

/-- The namespace flag set computed by contain (sandbox.c:329):
    `CLONE_NEWUSER | CLONE_NEWUTS | CLONE_NEWIPC | CLONE_NEWPID |
     (net ? CLONE_NEWNET : 0) | (mount ? CLONE_NEWNS : 0)`. -/
def contain_ns_flags (net mount : Bool) : Nat :=
  CLONE_NEWUSER ||| CLONE_NEWUTS ||| CLONE_NEWIPC ||| CLONE_NEWPID |||
    (if net then CLONE_NEWNET else 0) ||| (if mount then CLONE_NEWNS else 0)

/-- The first flag argument contain passes to clone (sandbox.c:330):
    `ns | SIGCHLD`. -/
def contain_clone_flags (net mount : Bool) : Nat :=
  contain_ns_flags net mount ||| SIGCHLD

/-- C2: for every pair of booleans the flag word passed to clone contains
    the four unconditional namespace flags, contains CLONE_NEWNET exactly
    when the network-sandbox flag is set, contains CLONE_NEWNS exactly
    when the filesystem-sandbox flag is set, has SIGCHLD as its low byte
    (the termination signal), and sets no bit outside this set. -/
theorem C2_clone_flags :
    ∀ (net mount : Bool),
    contain_clone_flags net mount &&& CLONE_NEWUSER = CLONE_NEWUSER ∧
    contain_clone_flags net mount &&& CLONE_NEWUTS = CLONE_NEWUTS ∧
    contain_clone_flags net mount &&& CLONE_NEWIPC = CLONE_NEWIPC ∧
    contain_clone_flags net mount &&& CLONE_NEWPID = CLONE_NEWPID ∧
    (contain_clone_flags net mount &&& CLONE_NEWNET = CLONE_NEWNET ↔ net = true) ∧
    (contain_clone_flags net mount &&& CLONE_NEWNS = CLONE_NEWNS ↔ mount = true) ∧
    contain_clone_flags net mount &&& 255 = SIGCHLD ∧
    contain_clone_flags net mount |||
        (CLONE_NEWUSER ||| CLONE_NEWUTS ||| CLONE_NEWIPC ||| CLONE_NEWPID |||
         CLONE_NEWNET ||| CLONE_NEWNS ||| SIGCHLD)
      = CLONE_NEWUSER ||| CLONE_NEWUTS ||| CLONE_NEWIPC ||| CLONE_NEWPID |||
         CLONE_NEWNET ||| CLONE_NEWNS ||| SIGCHLD := by
  decide

/- ---------- front end flag bitmask (sandbox.h:3-6; flag-building main) ---------- -/

def FLAG_SANDBOX_NET : Nat := 1

def FLAG_SANDBOX_FS : Nat := 2

def FLAG_SANDBOX_ALL : Nat := FLAG_SANDBOX_NET ||| FLAG_SANDBOX_FS

/-- A 32-bit all-ones mask, used to model the C bitwise complement. -/
def mask32 : Nat := 0xffffffff

/-- Modelled from the spec: the front end that builds the sandbox flag
    bitmask from the SHARE_NETWORK and SHARE_MOUNT environment variables
    is not present in the provided sources (sandbox.h declares
    `contain(argv, flags)` and defines the FLAG_SANDBOX_* bits, and
    nonet_main.c is a caller passing a constant mask, but no main reads
    these variables).  Following spec sections 4.5 and 6: start from all
    bits set; SHARE_NETWORK=1 suppresses SANDBOX_NET; SHARE_MOUNT=1
    suppresses SANDBOX_FS; any other value, or absence, leaves the
    corresponding bit set. -/
def one_str : Str := "1".toList

def frontend_flags (shareNetwork shareMount : Option Str) : Nat :=
  let f0 := FLAG_SANDBOX_ALL
  let f1 := if shareNetwork = some one_str
            then f0 &&& (mask32 ^^^ FLAG_SANDBOX_NET) else f0
  if shareMount = some one_str
  then f1 &&& (mask32 ^^^ FLAG_SANDBOX_FS) else f1

/-- C8: the front end clears the SANDBOX_NET bit exactly when
    SHARE_NETWORK is set to the string 1, and clears the SANDBOX_FS bit
    exactly when SHARE_MOUNT is set to the string 1; any other value or
    absence leaves the corresponding bit set. -/
theorem C8_frontend_flags :
    ∀ (shareNetwork shareMount : Option Str),
    ((frontend_flags shareNetwork shareMount &&& FLAG_SANDBOX_NET = 0)
        ↔ shareNetwork = some one_str) ∧
    ((frontend_flags shareNetwork shareMount &&& FLAG_SANDBOX_FS = 0)
        ↔ shareMount = some one_str) := by
  intro sn sm
  by_cases h1 : sn = some one_str <;> by_cases h2 : sm = some one_str <;>
    simp [frontend_flags, h1, h2] <;> decide

/- ---------- contain: parent-side wait and status propagation
              (sandbox.c:338-348) ---------- -/

/-- glibc WIFEXITED: `(status & 0x7f) == 0`. -/
def wifexited (status : Nat) : Bool := (status &&& 0x7f) == 0

/-- Twos-complement value of a byte, as in a C cast to signed char. -/
def signedChar (n : Nat) : Int :=
  if n % 256 < 128 then ((n % 256 : Nat) : Int) else ((n % 256 : Nat) : Int) - 256

/-- glibc WIFSIGNALED: `((signed char)(((status & 0x7f) + 1) >> 1)) > 0`.
    The argument of the shift lies in [-128, 127]; it is even whenever it
    is negative (only -128 occurs), so the arithmetic shift equals
    division by 2. -/
def wifsignaled (status : Nat) : Bool :=
  decide (0 < signedChar ((status &&& 0x7f) + 1) / 2)

/-- glibc WEXITSTATUS: `(status & 0xff00) >> 8`. -/
def wexitstatus (status : Nat) : Nat := (status &&& 0xff00) >>> 8

/-- glibc WTERMSIG: `status & 0x7f`. -/
def wtermsig (status : Nat) : Nat := status &&& 0x7f

/-- Diagnostics the modelled code can emit on stderr. -/
inductive Diag where
  | waitpidFailed
  | childExitFailed
  | skipTmpSubdir
  | noTmpDir
  | notADir (path : Str)
  | perrorMsg (tag : Str)
  deriving DecidableEq

/-- Result of the parent-side wait logic: emitted diagnostics, the signal
    re-raised on self (if any), and the returned exit code. -/
structure ReapRun where
  diags : List Diag
  killSig : Option Nat
  ret : Nat
  deriving DecidableEq

/-- contain, parent side after clone (sandbox.c:338-348): `status` is
    initialised to 0; if waitpid fails a diagnostic is emitted and
    `status` keeps its initial value; then WIFEXITED returns
    WEXITSTATUS, else WIFSIGNALED re-raises the signal on self, and the
    fall-through prints a diagnostic and returns 1. -/
def contain_reap (waitpidOk : Bool) (wstatus : Nat) : ReapRun :=
  let status := if waitpidOk then wstatus else 0
  let ds : List Diag := if waitpidOk then [] else [Diag.waitpidFailed]
  if wifexited status then ⟨ds, none, wexitstatus status⟩
  else if wifsignaled status then
    ⟨ds ++ [Diag.childExitFailed], some (wtermsig status), 1⟩
  else ⟨ds ++ [Diag.childExitFailed], none, 1⟩

/-- C3 counterexample: when waitpid fails, `status` keeps its initial
    value 0, for which WIFEXITED holds, so contain emits the waitpid
    diagnostic but returns WEXITSTATUS(0) = 0, not 1. -/
theorem C3_counterexample :
    contain_reap false 0 = ⟨[Diag.waitpidFailed], none, 0⟩ ∧
    ¬ (contain_reap false 0).ret = 1 := by
  decide

/-- C3 amended: if waitpid succeeds and the reaped status indicates that
    the child neither exited normally nor was terminated by a signal,
    contain emits a diagnostic and returns 1; if waitpid fails, contain
    emits a diagnostic but then treats the zero-initialised status as a
    normal exit and returns 0. -/
theorem C3_amended :
    ∀ (wstatus : Nat),
    (wifexited wstatus = false → wifsignaled wstatus = false →
       contain_reap true wstatus = ⟨[Diag.childExitFailed], none, 1⟩) ∧
    contain_reap false wstatus = ⟨[Diag.waitpidFailed], none, 0⟩ := by
  intro st
  constructor
  · intro h1 h2
    simp [contain_reap, h1, h2]
  · simp [contain_reap]
    decide

/-- Witness for C3 at status 127 (stopped-style status: neither exited
    nor signalled). -/
theorem C3_amended_witness :
    wifexited 127 = false ∧ wifsignaled 127 = false ∧
    contain_reap true 127 = ⟨[Diag.childExitFailed], none, 1⟩ := by
  refine ⟨by decide, by decide, ?_⟩
  exact (C3_amended 127).1 (by decide) (by decide)

/- ---------- mount_tmp (sandbox.c:182-252) ---------- -/

/-- Filesystem and environment operations attempted by mount_tmp, in the
    order the C code issues them. -/
inductive Action where
  | remountPrivate
  | mountTmpfsTmp
  | setenvA (name value : Str)
  | mountTmpfsRO (path : Str)
  | unsetenvA (name : Str)
  | mkdirA (path : Str)
  | bindMount (src dst : Str)
  | changeEnvA (oldDir newDir : Str)
  | remountRootRO
  | rewriteArgv0 (oldDir newDir : Str)
  | chdirA (path : Str)
  deriving DecidableEq

/-- Outcome of one tmpfs mount over a SANDBOX_DIRS entry. -/
inductive MountOutcome where
  | ok
  | enoent
  | enotdir
  | eother
  deriving DecidableEq

def nonfatal : MountOutcome → Bool
  | MountOutcome.eother => false
  | _ => true

/-- Outcomes of the syscalls mount_tmp performs, supplied as an oracle. -/
structure Oracle where
  mountPrivateOk : Bool
  mountTmpOk : Bool
  setenvTmpdirOk : Bool
  sandboxMount : Nat → MountOutcome
  mkdirOk : Bool
  bindOk : Bool
  setenvTestOk : Bool
  setenvTmpOk : Bool
  setenvHomeOk : Bool
  remountRoOk : Bool
  chdirOk : Bool

/-- Oracle where every syscall succeeds. -/
def allOk : Oracle :=
  ⟨true, true, true, fun _ => MountOutcome.ok, true, true, true, true, true,
   true, true⟩

/-- A run of mount_tmp: trace of attempted operations, diagnostics, and
    the returned value (chdir returns -1 on failure, hence Int). -/
structure MtRun where
  acts : List Action
  diags : List Diag
  ret : Int
  deriving DecidableEq

def tmp_slash : Str := "/tmp/".toList

def plz_sandbox : Str := "/tmp/plz_sandbox".toList

def tmp_path : Str := "/tmp".toList

def tmpdir_name : Str := "TMPDIR".toList

def sandbox_dirs_name : Str := "SANDBOX_DIRS".toList

def test_dir_name : Str := "TEST_DIR".toList

def tmp_dir_name : Str := "TMP_DIR".toList

def home_name : Str := "HOME".toList

def commaChar : Char := Char.ofNat 44

/-- strtok with a comma delimiter: comma-separated tokens of the string,
    with empty tokens dropped (strtok skips runs of delimiters). -/
def strtok_comma (s : Str) : List Str :=
  (List.splitOn commaChar s).filter (fun t => t != [])

/-- The skip test at the top of mount_tmp (sandbox.c:186-191):
    `strncmp(dir, "/tmp/", 5) == 0` on C strings is exactly: the five
    characters of "/tmp/" are a prefix of dir.  No path normalisation. -/
def skip_check (tmpDir : Option Str) : Bool :=
  match tmpDir with
  | some dir => tmp_slash.isPrefixOf dir
  | none => false

/-- The SANDBOX_DIRS loop (sandbox.c:210-222): for the i-th token the
    oracle gives the outcome of the read-only tmpfs mount; ENOENT and
    ENOTDIR log a diagnostic and continue; any other failure emits
    perror("mount tmpfs") and aborts the loop with failure. -/
def mount_sandbox_dirs :
    List Str → (Nat → MountOutcome) → List Action × List Diag × Bool
  | [], _ => ([], [], true)
  | t :: ts, f =>
    match f 0 with
    | MountOutcome.ok =>
      let r := mount_sandbox_dirs ts (fun i => f (i + 1))
      (Action.mountTmpfsRO t :: r.1, r.2.1, r.2.2)
    | MountOutcome.enoent =>
      let r := mount_sandbox_dirs ts (fun i => f (i + 1))
      (Action.mountTmpfsRO t :: r.1, Diag.notADir t :: r.2.1, r.2.2)
    | MountOutcome.enotdir =>
      let r := mount_sandbox_dirs ts (fun i => f (i + 1))
      (Action.mountTmpfsRO t :: r.1, Diag.notADir t :: r.2.1, r.2.2)
    | MountOutcome.eother =>
      ([Action.mountTmpfsRO t], [Diag.perrorMsg "mount tmpfs".toList], false)

/-- mount_tmp after the SANDBOX_DIRS processing (sandbox.c:226-251):
    the operations attempted, the diagnostics emitted and the value
    returned from that point on.  If TMP_DIR is unset the code logs and
    returns success at once; otherwise mkdir, bind mount, environment
    rewrite, the three setenv calls, the read-only remount of the root,
    the argv0 rewrite and the final chdir follow in order, each failure
    aborting with 1 (chdir returns its own value). -/
def mount_tmp_rest (tmpDir : Option Str) (o : Oracle) : MtRun :=
  match tmpDir with
  | none => ⟨[], [Diag.noTmpDir], 0⟩
  | some dir =>
    if o.mkdirOk = false then
      ⟨[Action.mkdirA plz_sandbox],
       [Diag.perrorMsg "mkdir /tmp/plz_sandbox".toList], 1⟩
    else if o.bindOk = false then
      ⟨[Action.mkdirA plz_sandbox, Action.bindMount dir plz_sandbox],
       [Diag.perrorMsg "bind mount".toList], 1⟩
    else
      let a2 := [Action.mkdirA plz_sandbox,
                 Action.bindMount dir plz_sandbox,
                 Action.changeEnvA dir plz_sandbox]
      if o.setenvTestOk = false then
        ⟨a2 ++ [Action.setenvA test_dir_name plz_sandbox],
         [Diag.perrorMsg "setenv".toList], 1⟩
      else if o.setenvTmpOk = false then
        ⟨a2 ++ [Action.setenvA test_dir_name plz_sandbox,
                Action.setenvA tmp_dir_name plz_sandbox],
         [Diag.perrorMsg "setenv".toList], 1⟩
      else if o.setenvHomeOk = false then
        ⟨a2 ++ [Action.setenvA test_dir_name plz_sandbox,
                Action.setenvA tmp_dir_name plz_sandbox,
                Action.setenvA home_name plz_sandbox],
         [Diag.perrorMsg "setenv".toList], 1⟩
      else
        let a3 := a2 ++ [Action.setenvA test_dir_name plz_sandbox,
                         Action.setenvA tmp_dir_name plz_sandbox,
                         Action.setenvA home_name plz_sandbox]
        if o.remountRoOk = false then
          ⟨a3 ++ [Action.remountRootRO],
           [Diag.perrorMsg "remount ro".toList], 1⟩
        else
          ⟨a3 ++ [Action.remountRootRO, Action.rewriteArgv0 dir plz_sandbox,
                  Action.chdirA plz_sandbox],
           [], if o.chdirOk then 0 else -1⟩

/-- mount_tmp (sandbox.c:182-252): skip test on TMP_DIR, recursive
    private remount of the root, tmpfs on /tmp, TMPDIR=/tmp, the
    SANDBOX_DIRS loop followed by unsetenv, then the remaining steps. -/
def mount_tmp (tmpDir sandboxDirs : Option Str) (o : Oracle) : MtRun :=
  if skip_check tmpDir then ⟨[], [Diag.skipTmpSubdir], 0⟩
  else if o.mountPrivateOk = false then
    ⟨[Action.remountPrivate], [Diag.perrorMsg "remount".toList], 1⟩
  else if o.mountTmpOk = false then
    ⟨[Action.remountPrivate, Action.mountTmpfsTmp],
     [Diag.perrorMsg "mount".toList], 1⟩
  else if o.setenvTmpdirOk = false then
    ⟨[Action.remountPrivate, Action.mountTmpfsTmp,
      Action.setenvA tmpdir_name tmp_path],
     [Diag.perrorMsg "setenv".toList], 1⟩
  else
    let pre : List Action := [Action.remountPrivate, Action.mountTmpfsTmp,
                              Action.setenvA tmpdir_name tmp_path]
    match sandboxDirs with
    | none =>
      let r := mount_tmp_rest tmpDir o
      ⟨pre ++ r.acts, r.diags, r.ret⟩
    | some ds =>
      let s := mount_sandbox_dirs (strtok_comma ds) o.sandboxMount
      if s.2.2 = false then ⟨pre ++ s.1, s.2.1, 1⟩
      else
        let r := mount_tmp_rest tmpDir o
        ⟨pre ++ s.1 ++ [Action.unsetenvA sandbox_dirs_name] ++ r.acts,
         s.2.1 ++ r.diags, r.ret⟩

/-- C7: if TMP_DIR is set and its value begins with "/tmp/", mount_tmp
    returns 0 immediately: the trace of attempted operations is empty
    (no remount, no tmpfs on /tmp, no SANDBOX_DIRS overlay, no bind
    mount, no environment rewriting, no chdir), only the skip message is
    printed. -/
theorem C7_skip_tmp :
    ∀ (dir : Str) (sandboxDirs : Option Str) (o : Oracle),
    tmp_slash.isPrefixOf dir = true →
    mount_tmp (some dir) sandboxDirs o = ⟨[], [Diag.skipTmpSubdir], 0⟩ := by
  intro dir sd o h
  have hs : skip_check (some dir) = true := by simpa [skip_check] using h
  simp [mount_tmp, hs]

/-- Witness for C7 with TMP_DIR = "/tmp/plz_tmp". -/
theorem C7_skip_tmp_witness :
    tmp_slash.isPrefixOf "/tmp/plz_tmp".toList = true ∧
    mount_tmp (some "/tmp/plz_tmp".toList) (some "/etc".toList) allOk
      = ⟨[], [Diag.skipTmpSubdir], 0⟩ :=
  ⟨by decide, C7_skip_tmp _ _ _ (by decide)⟩

theorem remountRootRO_not_in_sandbox_dirs (toks : List Str)
    (f : Nat → MountOutcome) :
    Action.remountRootRO ∉ (mount_sandbox_dirs toks f).1 := by
  induction toks generalizing f with
  | nil => simp [mount_sandbox_dirs]
  | cons t ts ih =>
    cases hf : f 0 <;> simp [mount_sandbox_dirs, hf] <;> exact ih _

theorem mount_tmp_rest_ro (dir : Str) (o : Oracle)
    (h : (mount_tmp_rest (some dir) o).ret = 0) :
    Action.remountRootRO ∈ (mount_tmp_rest (some dir) o).acts := by
  obtain ⟨mp, mt, se, sm, mk, bi, s1, s2, s3, ro, cd⟩ := o
  cases mk <;> cases bi <;> cases s1 <;> cases s2 <;> cases s3 <;> cases ro <;>
    simp_all [mount_tmp_rest]

/-- C4 counterexample: with TMP_DIR unset and all syscalls succeeding,
    mount_tmp completes successfully without the skip branch having
    fired, yet the read-only remount of the root never happens. -/
theorem C4_counterexample :
    skip_check none = false ∧
    (mount_tmp none none allOk).ret = 0 ∧
    Action.remountRootRO ∉ (mount_tmp none none allOk).acts := by
  decide

/-- C4 amended: on every successful non-skipped run with TMP_DIR set,
    the root is remounted read-only before mount_tmp returns; when
    TMP_DIR is unset, mount_tmp returns success without ever remounting
    the root read-only. -/
theorem C4_amended :
    ∀ (dir : Str) (sandboxDirs : Option Str) (o : Oracle),
    (skip_check (some dir) = false →
       (mount_tmp (some dir) sandboxDirs o).ret = 0 →
       Action.remountRootRO ∈ (mount_tmp (some dir) sandboxDirs o).acts) ∧
    ((mount_tmp none sandboxDirs o).ret = 0 →
       Action.remountRootRO ∉ (mount_tmp none sandboxDirs o).acts) := by
  intro dir sd o
  constructor
  · intro hskip hret
    unfold mount_tmp at hret ⊢
    rw [if_neg (show ¬ skip_check (some dir) = true by simp [hskip])] at hret ⊢
    by_cases h1 : o.mountPrivateOk = false
    · rw [if_pos h1] at hret
      simp at hret
    · rw [if_neg h1] at hret ⊢
      by_cases h2 : o.mountTmpOk = false
      · rw [if_pos h2] at hret
        simp at hret
      · rw [if_neg h2] at hret ⊢
        by_cases h3 : o.setenvTmpdirOk = false
        · rw [if_pos h3] at hret
          simp at hret
        · rw [if_neg h3] at hret ⊢
          cases sd with
          | none =>
            dsimp only at hret ⊢
            exact List.mem_append_right _ (mount_tmp_rest_ro dir o hret)
          | some ds =>
            dsimp only at hret ⊢
            by_cases h4 :
                (mount_sandbox_dirs (strtok_comma ds) o.sandboxMount).2.2 = false
            · rw [if_pos h4] at hret
              simp at hret
            · rw [if_neg h4] at hret ⊢
              dsimp only at hret ⊢
              exact List.mem_append_right _ (mount_tmp_rest_ro dir o hret)
  · intro _
    unfold mount_tmp
    rw [if_neg (show ¬ skip_check none = true by decide)]
    by_cases h1 : o.mountPrivateOk = false
    · rw [if_pos h1]
      decide
    · rw [if_neg h1]
      by_cases h2 : o.mountTmpOk = false
      · rw [if_pos h2]
        decide
      · rw [if_neg h2]
        by_cases h3 : o.setenvTmpdirOk = false
        · rw [if_pos h3]
          decide
        · rw [if_neg h3]
          cases sd with
          | none =>
            dsimp only [mount_tmp_rest]
            decide
          | some ds =>
            dsimp only
            by_cases h4 :
                (mount_sandbox_dirs (strtok_comma ds) o.sandboxMount).2.2 = false
            · rw [if_pos h4]
              dsimp only
              intro hm
              rcases List.mem_append.mp hm with hl | hr
              · revert hl
                decide
              · exact remountRootRO_not_in_sandbox_dirs _ _ hr
            · rw [if_neg h4]
              dsimp only [mount_tmp_rest]
              intro hm
              rcases List.mem_append.mp hm with hl | hr
              · rcases List.mem_append.mp hl with hll | hlr
                · rcases List.mem_append.mp hll with h5 | h6
                  · revert h5
                    decide
                  · exact remountRootRO_not_in_sandbox_dirs _ _ h6
                · simp at hlr
              · simp at hr

/-- Witness for C4 with TMP_DIR = "/work" and all syscalls succeeding. -/
theorem C4_amended_witness :
    skip_check (some "/work".toList) = false ∧
    (mount_tmp (some "/work".toList) none allOk).ret = 0 ∧
    Action.remountRootRO ∈ (mount_tmp (some "/work".toList) none allOk).acts :=
  ⟨by decide, by decide,
   (C4_amended "/work".toList none allOk).1 (by decide) (by decide)⟩

/-- The three operations preceding the SANDBOX_DIRS loop. -/
def mtPre : List Action :=
  [Action.remountPrivate, Action.mountTmpfsTmp,
   Action.setenvA tmpdir_name tmp_path]

theorem mount_tmp_some_eval (td : Option Str) (ds : Str) (o : Oracle)
    (hskip : skip_check td = false) (h1 : o.mountPrivateOk = true)
    (h2 : o.mountTmpOk = true) (h3 : o.setenvTmpdirOk = true) :
    mount_tmp td (some ds) o
      = (if (mount_sandbox_dirs (strtok_comma ds) o.sandboxMount).2.2 = false
         then ⟨mtPre ++ (mount_sandbox_dirs (strtok_comma ds) o.sandboxMount).1,
               (mount_sandbox_dirs (strtok_comma ds) o.sandboxMount).2.1, 1⟩
         else ⟨mtPre ++ (mount_sandbox_dirs (strtok_comma ds) o.sandboxMount).1
                ++ [Action.unsetenvA sandbox_dirs_name]
                ++ (mount_tmp_rest td o).acts,
               (mount_sandbox_dirs (strtok_comma ds) o.sandboxMount).2.1
                ++ (mount_tmp_rest td o).diags,
               (mount_tmp_rest td o).ret⟩) := by
  unfold mount_tmp
  rw [if_neg (show ¬ skip_check td = true by simp [hskip]),
      if_neg (show ¬ o.mountPrivateOk = false by simp [h1]),
      if_neg (show ¬ o.mountTmpOk = false by simp [h2]),
      if_neg (show ¬ o.setenvTmpdirOk = false by simp [h3])]
  rfl

theorem mount_tmp_rest_congr (td : Option Str) (o : Oracle)
    (f : Nat → MountOutcome) :
    mount_tmp_rest td { o with sandboxMount := f } = mount_tmp_rest td o := by
  obtain ⟨mp, mt, se, sm, mk, bi, s1, s2, s3, ro, cd⟩ := o
  cases td <;> rfl

theorem mount_sandbox_dirs_all_ok (toks : List Str) :
    mount_sandbox_dirs toks (fun _ => MountOutcome.ok)
      = (toks.map Action.mountTmpfsRO, [], true) := by
  induction toks with
  | nil => rfl
  | cons t ts ih => simp [mount_sandbox_dirs, ih]

theorem mount_sandbox_dirs_nonfatal (toks : List Str) (f : Nat → MountOutcome)
    (h : ∀ i, i < toks.length → nonfatal (f i) = true) :
    (mount_sandbox_dirs toks f).2.2 = true ∧
    ∀ t ∈ toks, Action.mountTmpfsRO t ∈ (mount_sandbox_dirs toks f).1 := by
  induction toks generalizing f with
  | nil => simp [mount_sandbox_dirs]
  | cons t ts ih =>
    have h0 : nonfatal (f 0) = true := h 0 (by simp)
    have hs : ∀ i, i < ts.length → nonfatal (f (i + 1)) = true := by
      intro i hi
      exact h (i + 1) (by simpa using Nat.succ_lt_succ hi)
    cases hf : f 0 with
    | ok =>
      obtain ⟨ho, hm⟩ := ih (fun i => f (i + 1)) hs
      refine ⟨by simp [mount_sandbox_dirs, hf, ho], ?_⟩
      intro u hu
      rcases List.mem_cons.mp hu with rfl | hmem
      · simp [mount_sandbox_dirs, hf]
      · simp only [mount_sandbox_dirs, hf]
        exact List.mem_cons_of_mem _ (hm u hmem)
    | enoent =>
      obtain ⟨ho, hm⟩ := ih (fun i => f (i + 1)) hs
      refine ⟨by simp [mount_sandbox_dirs, hf, ho], ?_⟩
      intro u hu
      rcases List.mem_cons.mp hu with rfl | hmem
      · simp [mount_sandbox_dirs, hf]
      · simp only [mount_sandbox_dirs, hf]
        exact List.mem_cons_of_mem _ (hm u hmem)
    | enotdir =>
      obtain ⟨ho, hm⟩ := ih (fun i => f (i + 1)) hs
      refine ⟨by simp [mount_sandbox_dirs, hf, ho], ?_⟩
      intro u hu
      rcases List.mem_cons.mp hu with rfl | hmem
      · simp [mount_sandbox_dirs, hf]
      · simp only [mount_sandbox_dirs, hf]
        exact List.mem_cons_of_mem _ (hm u hmem)
    | eother =>
      rw [hf] at h0
      simp [nonfatal] at h0

theorem mount_sandbox_dirs_fatal (toks : List Str) (f : Nat → MountOutcome)
    (j : Nat) (hj : j < toks.length) (hf : f j = MountOutcome.eother)
    (hpre : ∀ i, i < j → nonfatal (f i) = true) :
    (mount_sandbox_dirs toks f).2.2 = false := by
  induction toks generalizing f j with
  | nil => simp at hj
  | cons t ts ih =>
    cases j with
    | zero => simp [mount_sandbox_dirs, hf]
    | succ j =>
      have h0 : nonfatal (f 0) = true := hpre 0 (Nat.succ_pos j)
      have hrec := ih (fun i => f (i + 1)) j
        (Nat.lt_of_succ_lt_succ hj) hf
        (fun i hi => hpre (i + 1) (Nat.succ_lt_succ hi))
      cases h00 : f 0 with
      | ok => simp [mount_sandbox_dirs, h00, hrec]
      | enoent => simp [mount_sandbox_dirs, h00, hrec]
      | enotdir => simp [mount_sandbox_dirs, h00, hrec]
      | eother =>
        rw [h00] at h0
        simp [nonfatal] at h0

theorem mount_sandbox_dirs_log (toks : List Str) (f : Nat → MountOutcome)
    (i : Nat) (hi : i < toks.length)
    (hpre : ∀ k, k < i → nonfatal (f k) = true)
    (hout : f i = MountOutcome.enoent ∨ f i = MountOutcome.enotdir) :
    Diag.notADir (toks.get ⟨i, hi⟩) ∈ (mount_sandbox_dirs toks f).2.1 := by
  induction toks generalizing f i with
  | nil => simp at hi
  | cons t ts ih =>
    cases i with
    | zero =>
      rcases hout with h0 | h0 <;> simp [mount_sandbox_dirs, h0]
    | succ i =>
      have h0 : nonfatal (f 0) = true := hpre 0 (Nat.succ_pos i)
      have hrec := ih (fun k => f (k + 1)) i (Nat.lt_of_succ_lt_succ hi)
        (fun k hk => hpre (k + 1) (Nat.succ_lt_succ hk)) hout
      cases h00 : f 0 with
      | ok => simpa [mount_sandbox_dirs, h00] using hrec
      | enoent =>
        simp only [mount_sandbox_dirs, h00, List.get_cons_succ]
        exact List.mem_cons_of_mem _ hrec
      | enotdir =>
        simp only [mount_sandbox_dirs, h00, List.get_cons_succ]
        exact List.mem_cons_of_mem _ hrec
      | eother =>
        rw [h00] at h0
        simp [nonfatal] at h0

/-- C10: the skip test compares the five bytes "/tmp/" literally, so
    TMP_DIR = "/tmp" (no trailing slash) is NOT skipped: mount_tmp
    remounts the root private, mounts a fresh tmpfs over /tmp, and later
    bind-mounts TMP_DIR onto /tmp/plz_sandbox, completing successfully
    when every syscall succeeds. -/
theorem C10_tmp_exact :
    ∀ (sandboxDirs : Option Str),
    skip_check (some tmp_path) = false ∧
    (mount_tmp (some tmp_path) sandboxDirs allOk).ret = 0 ∧
    (mount_tmp (some tmp_path) sandboxDirs allOk).acts.take 2
      = [Action.remountPrivate, Action.mountTmpfsTmp] ∧
    Action.bindMount tmp_path plz_sandbox
      ∈ (mount_tmp (some tmp_path) sandboxDirs allOk).acts := by
  intro sd
  refine ⟨by decide, ?_⟩
  cases sd with
  | none => exact ⟨by decide, by decide, by decide⟩
  | some ds =>
    rw [mount_tmp_some_eval (some tmp_path) ds allOk (by decide) rfl rfl rfl,
        show allOk.sandboxMount = (fun _ => MountOutcome.ok) from rfl,
        mount_sandbox_dirs_all_ok,
        if_neg (show ¬ ((strtok_comma ds).map Action.mountTmpfsRO,
          ([] : List Diag), true).2.2 = false by simp)]
    refine ⟨?_, by rfl, ?_⟩
    · show (mount_tmp_rest (some tmp_path) allOk).ret = 0
      decide
    · exact List.mem_append_right _
        (show Action.bindMount tmp_path plz_sandbox
            ∈ (mount_tmp_rest (some tmp_path) allOk).acts by decide)

/-- C5: with the preceding steps succeeding and the skip branch not
    taken, mount_tmp comma-splits SANDBOX_DIRS with strtok semantics and
    attempts a read-only tmpfs mount at each token.  When every outcome
    is non-fatal (success, ENOENT or ENOTDIR), the mount of every token is
    attempted, SANDBOX_DIRS is unset afterwards, and the overall result
    equals the result with every mount succeeding; an ENOENT or ENOTDIR
    outcome is logged to stderr; the first fatal outcome makes mount_tmp
    return 1. -/
theorem C5_sandbox_dirs :
    ∀ (ds : Str) (tmpDir : Option Str) (o : Oracle),
    skip_check tmpDir = false →
    o.mountPrivateOk = true → o.mountTmpOk = true → o.setenvTmpdirOk = true →
    (((∀ i, i < (strtok_comma ds).length → nonfatal (o.sandboxMount i) = true) →
        (∀ t ∈ strtok_comma ds,
           Action.mountTmpfsRO t ∈ (mount_tmp tmpDir (some ds) o).acts) ∧
        Action.unsetenvA sandbox_dirs_name ∈ (mount_tmp tmpDir (some ds) o).acts ∧
        (mount_tmp tmpDir (some ds) o).ret
          = (mount_tmp tmpDir (some ds)
               { o with sandboxMount := fun _ => MountOutcome.ok }).ret) ∧
     (∀ j, j < (strtok_comma ds).length →
        o.sandboxMount j = MountOutcome.eother →
        (∀ i, i < j → nonfatal (o.sandboxMount i) = true) →
        (mount_tmp tmpDir (some ds) o).ret = 1) ∧
     (∀ i (hi : i < (strtok_comma ds).length),
        (∀ k, k < i → nonfatal (o.sandboxMount k) = true) →
        (o.sandboxMount i = MountOutcome.enoent ∨
           o.sandboxMount i = MountOutcome.enotdir) →
        Diag.notADir ((strtok_comma ds).get ⟨i, hi⟩)
          ∈ (mount_tmp tmpDir (some ds) o).diags)) := by
  intro ds td o hskip h1 h2 h3
  have heval := mount_tmp_some_eval td ds o hskip h1 h2 h3
  refine ⟨?_, ?_, ?_⟩
  · intro hnf
    obtain ⟨ho, hm⟩ :=
      mount_sandbox_dirs_nonfatal (strtok_comma ds) o.sandboxMount hnf
    have hcond :
        ¬ (mount_sandbox_dirs (strtok_comma ds) o.sandboxMount).2.2 = false := by
      simp [ho]
    rw [heval, if_neg hcond]
    refine ⟨?_, ?_, ?_⟩
    · intro t ht
      exact List.mem_append_left _
        (List.mem_append_left _ (List.mem_append_right _ (hm t ht)))
    · exact List.mem_append_left _
        (List.mem_append_right _ (List.mem_singleton_self _))
    · have heval2 := mount_tmp_some_eval td ds
        { o with sandboxMount := fun _ => MountOutcome.ok } hskip h1 h2 h3
      rw [show ({ o with sandboxMount := fun _ => MountOutcome.ok } :
            Oracle).sandboxMount = (fun _ => MountOutcome.ok) from rfl,
          mount_sandbox_dirs_all_ok,
          if_neg (show ¬ ((strtok_comma ds).map Action.mountTmpfsRO,
            ([] : List Diag), true).2.2 = false by simp)] at heval2
      rw [heval2]
      dsimp only
      rw [mount_tmp_rest_congr td o (fun _ => MountOutcome.ok)]
  · intro j hj hfj hpre
    have hfatal :=
      mount_sandbox_dirs_fatal (strtok_comma ds) o.sandboxMount j hj hfj hpre
    rw [heval, if_pos hfatal]
  · intro i hi hpre hout
    have hlog :=
      mount_sandbox_dirs_log (strtok_comma ds) o.sandboxMount i hi hpre hout
    rw [heval]
    by_cases hf :
        (mount_sandbox_dirs (strtok_comma ds) o.sandboxMount).2.2 = false
    · rw [if_pos hf]
      exact hlog
    · rw [if_neg hf]
      exact List.mem_append_left _ hlog

/-- Oracle for the C5 witness: the first SANDBOX_DIRS mount fails with
    ENOENT, everything else succeeds. -/
def oW : Oracle :=
  ⟨true, true, true,
   fun i => if i = 0 then MountOutcome.enoent else MountOutcome.ok,
   true, true, true, true, true, true, true⟩

/-- Witness for C5 with SANDBOX_DIRS = "/a,/b", the first mount failing
    with ENOENT. -/
theorem C5_sandbox_dirs_witness :
    Action.mountTmpfsRO "/a".toList
      ∈ (mount_tmp none (some "/a,/b".toList) oW).acts ∧
    Action.unsetenvA sandbox_dirs_name
      ∈ (mount_tmp none (some "/a,/b".toList) oW).acts ∧
    Diag.notADir "/a".toList
      ∈ (mount_tmp none (some "/a,/b".toList) oW).diags := by
  have h := C5_sandbox_dirs "/a,/b".toList none oW (by decide) rfl rfl rfl
  have hnf : ∀ i, i < (strtok_comma "/a,/b".toList).length →
      nonfatal (oW.sandboxMount i) = true := by decide
  obtain ⟨hall, hunset, _⟩ := h.1 hnf
  refine ⟨hall "/a".toList (by decide), hunset, ?_⟩
  exact h.2.2 0 (by decide) (by decide) (by decide)

end Plz
